import Mathlib

/-!
Verification of the guestbook service (src/app.py, src/approve.py,
src/printer-server.py) against its natural-language specification.

The Python source is shallowly embedded: strings are lists of Unicode
characters, SQLite rows are a structure, and each handler becomes a pure
function from its inputs and the store state to a result and a new state.
External library calls that the source delegates to — the Unicode
general-category table behind Python's unicodedata.category and the
whitespace table behind str.isspace — are modelled as function parameters
(catC, isSp), with concrete instances that agree with the real tables on
Latin-1 used for evaluation.
-/

set_option autoImplicit false

namespace Guestbook

/-- MAX_LENGTH in src/app.py (hard-coded 10_000). -/
def MAX_LENGTH : Nat := 10000

/-- The sanitize function of src/app.py, lines 63-79: iterate characters,
keep a newline unconditionally, drop ASCII controls (below 0x20) and DEL
(0x7F), drop characters whose Unicode general category starts with C.
The library call unicodedata.category(char).startswith("C") is the
parameter catC. -/
def sanitize (catC : Char → Bool) : List Char → List Char
  | [] => []
  | c :: rest =>
    if c = '\n' then c :: sanitize catC rest
    else if c.toNat < 0x20 ∨ c.toNat = 0x7F then sanitize catC rest
    else if catC c = true then sanitize catC rest
    else c :: sanitize catC rest

/-- The keep-predicate of the specification for sanitize: a character
survives iff it is a newline, or it is at least 0x20, not DEL, and not of
a Unicode category starting with C. -/
def keepChar (catC : Char → Bool) (c : Char) : Bool :=
  decide (c = '\n' ∨ (0x20 ≤ c.toNat ∧ c.toNat ≠ 0x7F ∧ catC c = false))

/-- Python str.strip(): remove leading and trailing whitespace, with the
whitespace table (str.isspace) as the parameter isSp. -/
def pyStrip (isSp : Char → Bool) (l : List Char) : List Char :=
  ((l.dropWhile isSp).reverse.dropWhile isSp).reverse

/-- Unicode general category C (control, format, surrogate, private use)
restricted to the Latin-1 range, where it is exactly the C0 and C1 control
blocks plus the soft hyphen; used to evaluate the model on concrete ASCII
inputs, where it agrees with Python's unicodedata. -/
def latin1CatC (c : Char) : Bool :=
  decide (c.toNat < 0x20) ||
    decide (0x7F ≤ c.toNat ∧ c.toNat ≤ 0x9F) ||
    decide (c.toNat = 0xAD)

/-- Python str.isspace restricted to ASCII, for concrete evaluation. -/
def asciiIsSpace (c : Char) : Bool :=
  decide (c.toNat = 0x20) || decide (0x09 ≤ c.toNat ∧ c.toNat ≤ 0x0D) ||
    decide (0x1C ≤ c.toNat ∧ c.toNat ≤ 0x1F)

/-- One row of the messages table created by init_db in src/app.py
(lines 32-42).  The commentary field is the column that the moderation
tool src/approve.py assumes; whether the schema actually declares it is
tracked separately by initDbColumns / approveUpdateColumns. -/
structure Row where
  id : Nat
  message : List Char
  submitted_at : List Char
  ip_hash : List Char
  gallery_approved : Bool
  commentary : Option (List Char)
deriving DecidableEq, Repr

/-- The guestbook store: the messages table plus the AUTOINCREMENT
counter. -/
structure Store where
  nextId : Nat
  rows : List Row
deriving DecidableEq, Repr

/-- SQLite comparison of TEXT values is bytewise (memcmp) on the UTF-8
encoding, which coincides with lexicographic order on code points:
strict less-than. -/
def strLtChars : List Char → List Char → Bool
  | [], [] => false
  | [], _ :: _ => true
  | _ :: _, [] => false
  | a :: as, b :: bs =>
    if a.toNat < b.toNat then true
    else if b.toNat < a.toNat then false
    else strLtChars as bs

/-- SQLite TEXT comparison, non-strict. -/
def strLE (a b : List Char) : Bool := !(strLtChars b a)

/-- The WHERE predicate of the daily-quota query in src/app.py line 128:
submitted_at is greater than or equal to the current UTC date string. -/
def countedTowardQuota (today : List Char) (r : Row) : Bool :=
  strLE today r.submitted_at

/-- SELECT COUNT(star) FROM messages WHERE submitted_at is at least today
(src/app.py lines 127-129). -/
def countToday (rows : List Row) (today : List Char) : Nat :=
  (rows.filter (countedTowardQuota today)).length

/-- A row's submitted_at has today's date, i.e. the ISO-8601 timestamp
string begins with the date string. -/
def hasDate (today : List Char) (r : Row) : Bool :=
  r.submitted_at.take today.length == today

/-- Terminal outcomes of the /submit endpoint: pydantic length rejection
(HTTP 422), empty content (400), daily limit (429), printer failure after
persist (502), success (200). -/
inductive SubmitResult where
  | validationError
  | emptyContent
  | dailyLimitReached
  | printerUnavailable
  | accepted
deriving DecidableEq, Repr

/-- The cleaned text of a submission: sanitize then strip
(src/app.py line 119). -/
def cleanOf (catC isSp : Char → Bool) (msg : List Char) : List Char :=
  pyStrip isSp (sanitize catC msg)

/-- The INSERT of src/app.py lines 133-136: append the cleaned message
with the current timestamp, the ip hash, and the default
gallery_approved = 0; the id comes from AUTOINCREMENT. -/
def insertRow (store : Store) (clean now ip : List Char) : Store :=
  { nextId := store.nextId + 1,
    rows := store.rows ++
      [{ id := store.nextId, message := clean, submitted_at := now,
         ip_hash := ip, gallery_approved := false, commentary := none }] }

/-- The /submit endpoint of src/app.py (lines 102-143) including the
pydantic length validator: reject long raw input, sanitize and strip,
reject empty, count today's rows against the daily limit, insert, then
call the printer; printerOk tells whether the printer call succeeds.
limit is DAILY_GLOBAL_LIMIT (environment-configured, default 30),
today the current UTC date string, now the insert-time timestamp. -/
def submit (catC isSp : Char → Bool) (limit : Nat) (today now : List Char)
    (printerOk : Bool) (ip : List Char) (store : Store) (msg : List Char) :
    SubmitResult × Store :=
  if msg.length > MAX_LENGTH then (.validationError, store)
  else if cleanOf catC isSp msg = [] then (.emptyContent, store)
  else if countToday store.rows today ≥ limit then (.dailyLimitReached, store)
  else if printerOk then (.accepted, insertRow store (cleanOf catC isSp msg) now ip)
  else (.printerUnavailable, insertRow store (cleanOf catC isSp msg) now ip)

/-- The columns of the messages table created by init_db in src/app.py
(lines 32-42). -/
def initDbColumns : List String :=
  ["id", "message", "submitted_at", "ip_hash", "gallery_approved"]

/-- The columns written by the UPDATE statement of approve_message in
src/approve.py lines 52-55. -/
def approveUpdateColumns : List String :=
  ["gallery_approved", "commentary"]

/-- Outcomes of the moderation tool's approve_message
(src/approve.py lines 33-57). -/
inductive ApproveOutcome where
  | notFound
  | cancelled
  | sqlError
  | approved
deriving DecidableEq, Repr

/-- approve_message of src/approve.py lines 33-57 against a store whose
table has the given schema columns: SELECT the row with the given id and
gallery_approved = 0; if none, report not-found; otherwise, after the
operator confirms, run the UPDATE setting gallery_approved = 1 and
commentary (empty commentary becomes NULL via the or-None idiom).  The
UPDATE raises sqlite3.OperationalError — modelled as sqlError, leaving
the rows unchanged — when one of its SET columns is absent from the
schema. -/
def approve_message (schema : List String) (rows : List Row) (mid : Nat)
    (commentary : List Char) (confirm : Bool) : ApproveOutcome × List Row :=
  match rows.find? (fun r => r.id == mid && !r.gallery_approved) with
  | none => (.notFound, rows)
  | some row =>
    if !confirm then (.cancelled, rows)
    else if approveUpdateColumns.all (fun c => schema.contains c) then
      (.approved, rows.map (fun r =>
        if r.id == row.id then
          { r with gallery_approved := true,
                   commentary := if commentary = [] then none else some commentary }
        else r))
    else (.sqlError, rows)

/-- The UTF-8 encoding of one Unicode scalar value, as produced by
Python's str.encode("utf-8"). -/
def utf8Bytes (c : Char) : List Nat :=
  if c.toNat < 0x80 then [c.toNat]
  else if c.toNat < 0x800 then
    [0xC0 + c.toNat / 0x40, 0x80 + c.toNat % 0x40]
  else if c.toNat < 0x10000 then
    [0xE0 + c.toNat / 0x1000, 0x80 + c.toNat / 0x40 % 0x40, 0x80 + c.toNat % 0x40]
  else
    [0xF0 + c.toNat / 0x40000, 0x80 + c.toNat / 0x1000 % 0x40,
     0x80 + c.toNat / 0x40 % 0x40, 0x80 + c.toNat % 0x40]

/-- message.encode("utf-8") on a whole string. -/
def utf8Encode (l : List Char) : List Nat :=
  (l.map utf8Bytes).flatten

/-- The ESC @ initialization sequence of src/printer-server.py line 12. -/
def esc_init : List Nat := [0x1b, 0x40]

/-- The feed-and-cut sequence of src/printer-server.py line 13. -/
def feed_and_cut : List Nat := [0x1b, 0x64, 0x05, 0x1d, 0x56, 0x00]

/-- print_message of src/printer-server.py lines 11-16: the byte string
handed to the device in one write. -/
def print_message (message : List Char) : List Nat :=
  esc_init ++ utf8Encode message ++ [0x0a] ++ feed_and_cut

/-- The sequence of writes print_message performs on the opened device:
a single write of the whole frame (src/printer-server.py line 16). -/
def deviceWrites (message : List Char) : List (List Nat) :=
  [print_message message]

/-- The wire frame as the specification words it: initialization bytes
1B 40, then the UTF-8 message bytes, then one newline byte 0A, then the
feed-and-cut bytes 1B 64 05 1D 56 00. -/
def specFrame (text : List Char) : List Nat :=
  [0x1b, 0x40] ++ utf8Encode text ++ [0x0a] ++ [0x1b, 0x64, 0x05, 0x1d, 0x56, 0x00]

/-- What the printer bridge's POST handler sees after reading the body
(src/printer-server.py lines 26-31).  raisesBeforeStrip covers every
exception thrown before or at the strip call: json.loads failing,
payload.get failing because the payload is not a dict, or .strip failing
because the message value is not a string; the carried text is the
exception's description.  message m is a JSON dict whose message field is
the string m, or is absent (m = none, so payload.get yields ""). -/
inductive PayloadParse where
  | raisesBeforeStrip (e : List Char)
  | message (m : Option (List Char))
deriving DecidableEq, Repr

/-- do_POST of src/printer-server.py lines 20-44 on the /print path,
returning status code and body bytes (as characters).  printErr is none
when print_message succeeds, or carries the exception text when opening
or writing the device raises. -/
def do_POST_print (isSp : Char → Bool) (parse : PayloadParse)
    (printErr : Option (List Char)) : Nat × List Char :=
  match parse with
  | .raisesBeforeStrip e => (500, e)
  | .message m =>
    if pyStrip isSp (m.getD []) = [] then (400, ("Missing message").data)
    else
      match printErr with
      | some e => (500, e)
      | none => (200, ("OK").data)

/-! Helper lemmas shared by the claim theorems. -/

/-- The sanitize loop is the filter by the keep-predicate. -/
theorem sanitize_eq_filter (catC : Char → Bool) (l : List Char) :
    sanitize catC l = l.filter (keepChar catC) := by
  induction l with
  | nil => rfl
  | cons c rest ih =>
    by_cases h1 : c = '\n'
    · subst h1
      have hk : keepChar catC '\n' = true := decide_eq_true (Or.inl rfl)
      simp [sanitize, List.filter_cons, hk, ih]
    · by_cases h2 : c.toNat < 0x20 ∨ c.toNat = 0x7F
      · have hk : keepChar catC c = false := by
          apply decide_eq_false
          rintro (h | ⟨hle, hne, _⟩)
          · exact h1 h
          · rcases h2 with h | h
            · omega
            · exact hne h
        simp [sanitize, h1, h2, List.filter_cons, hk, ih]
      · by_cases h3 : catC c = true
        · have hk : keepChar catC c = false := by
            apply decide_eq_false
            rintro (h | ⟨_, _, hcat⟩)
            · exact h1 h
            · rw [h3] at hcat; simp at hcat
          simp [sanitize, h1, h2, h3, List.filter_cons, hk, ih]
        · have hk : keepChar catC c = true := by
            apply decide_eq_true
            refine Or.inr ⟨?_, ?_, ?_⟩
            · omega
            · intro h; exact h2 (Or.inr h)
            · exact Bool.eq_false_iff.mpr h3
          simp [sanitize, h1, h2, h3, List.filter_cons, hk, ih]

/-- Filtering twice by the same predicate is filtering once. -/
theorem filter_idem {α : Type} (p : α → Bool) (l : List α) :
    (l.filter p).filter p = l.filter p := by
  induction l with
  | nil => rfl
  | cons a l ih =>
    by_cases h : p a = true
    · simp [List.filter_cons, h, ih]
    · simp [List.filter_cons, Bool.eq_false_iff.mpr h, ih]

/-- A pointwise-weaker predicate filters to a list at most as long. -/
theorem length_filter_mono {α : Type} (p q : α → Bool)
    (h : ∀ a, p a = true → q a = true) (l : List α) :
    (l.filter p).length ≤ (l.filter q).length := by
  induction l with
  | nil => exact Nat.le_refl 0
  | cons a l ih =>
    by_cases hp : p a = true
    · simp [List.filter_cons, hp, h a hp]
      exact ih
    · by_cases hq : q a = true
      · simp [List.filter_cons, Bool.eq_false_iff.mpr hp, hq]
        exact Nat.le_trans ih (Nat.le_succ _)
      · simp [List.filter_cons, Bool.eq_false_iff.mpr hp, Bool.eq_false_iff.mpr hq]
        exact ih

/-- A list never compares strictly below one of its own prefixes. -/
theorem strLtChars_append_self (a b : List Char) :
    strLtChars (a ++ b) a = false := by
  induction a with
  | nil => cases b <;> rfl
  | cons x xs ih => simp [strLtChars, ih]

/-- A string extending a prefix is at least that prefix in SQLite TEXT
order. -/
theorem strLE_of_hasDate (today : List Char) (r : Row)
    (h : hasDate today r = true) : countedTowardQuota today r = true := by
  have heq : r.submitted_at.take today.length = today := by
    have hb : (r.submitted_at.take today.length == today) = true := by
      simpa [hasDate] using h
    exact eq_of_beq hb
  have hsplit : r.submitted_at = today ++ r.submitted_at.drop today.length := by
    conv_lhs => rw [← List.take_append_drop today.length r.submitted_at]
    rw [heq]
  unfold countedTowardQuota strLE
  rw [hsplit, strLtChars_append_self]
  rfl

/-- Dropping a prefix keeps only elements of the original list. -/
theorem mem_of_mem_dropWhile {α : Type} (p : α → Bool) (l : List α) (c : α)
    (h : c ∈ l.dropWhile p) : c ∈ l := by
  induction l with
  | nil => simp [List.dropWhile] at h
  | cons a l ih =>
    by_cases hp : p a = true
    · simp only [List.dropWhile, hp] at h
      exact List.mem_cons_of_mem a (ih h)
    · simp only [List.dropWhile, Bool.eq_false_iff.mpr hp] at h
      simpa using h

/-- dropWhile never lengthens a list. -/
theorem length_dropWhile_le' {α : Type} (p : α → Bool) (l : List α) :
    (l.dropWhile p).length ≤ l.length := by
  induction l with
  | nil => exact Nat.le_refl 0
  | cons a l ih =>
    by_cases hp : p a = true
    · simp only [List.dropWhile, hp]
      exact Nat.le_trans ih (Nat.le_succ _)
    · simp [List.dropWhile, Bool.eq_false_iff.mpr hp]

/-- Every character of the stripped string occurs in the original. -/
theorem mem_of_mem_pyStrip (isSp : Char → Bool) (l : List Char) (c : Char)
    (h : c ∈ pyStrip isSp l) : c ∈ l := by
  unfold pyStrip at h
  rw [List.mem_reverse] at h
  have h1 := mem_of_mem_dropWhile _ _ _ h
  rw [List.mem_reverse] at h1
  exact mem_of_mem_dropWhile _ _ _ h1

/-- Stripping never lengthens a string. -/
theorem length_pyStrip_le (isSp : Char → Bool) (l : List Char) :
    (pyStrip isSp l).length ≤ l.length := by
  unfold pyStrip
  rw [List.length_reverse]
  calc ((l.dropWhile isSp).reverse.dropWhile isSp).length
      ≤ (l.dropWhile isSp).reverse.length := length_dropWhile_le' _ _
    _ = (l.dropWhile isSp).length := List.length_reverse _
    _ ≤ l.length := length_dropWhile_le' _ _

/-- Every character of the cleaned text satisfies the keep-predicate of
the sanitizer. -/
theorem mem_cleanOf (catC isSp : Char → Bool) (msg : List Char) (c : Char)
    (h : c ∈ cleanOf catC isSp msg) :
    c = '\n' ∨ (0x20 ≤ c.toNat ∧ c.toNat ≠ 0x7F ∧ catC c = false) := by
  have h1 : c ∈ sanitize catC msg := mem_of_mem_pyStrip _ _ _ h
  rw [sanitize_eq_filter] at h1
  have hk : keepChar catC c = true := (List.mem_filter.mp h1).2
  unfold keepChar at hk
  exact of_decide_eq_true hk

/-- The cleaned text is at most as long as the raw message. -/
theorem length_cleanOf_le (catC isSp : Char → Bool) (msg : List Char) :
    (cleanOf catC isSp msg).length ≤ msg.length := by
  unfold cleanOf
  refine Nat.le_trans (length_pyStrip_le _ _) ?_
  rw [sanitize_eq_filter]
  exact List.length_filter_le _ _

/-- Mapping a row transformer that does not touch the message field
leaves the sequence of message texts unchanged. -/
theorem map_message_of_update (rows : List Row) (f : Row → Row)
    (h : ∀ r, (f r).message = r.message) :
    (rows.map f).map Row.message = rows.map Row.message := by
  induction rows with
  | nil => rfl
  | cons r rows ih => simp [h r, ih]

/-- approve_message never changes any stored message text. -/
theorem approve_message_preserves_texts (schema : List String)
    (rows : List Row) (mid : Nat) (commentary : List Char) (confirm : Bool) :
    ((approve_message schema rows mid commentary confirm).2).map Row.message =
      rows.map Row.message := by
  unfold approve_message
  cases hfind : rows.find? (fun r => r.id == mid && !r.gallery_approved) with
  | none => rfl
  | some row =>
    cases confirm with
    | false => rfl
    | true =>
      by_cases hcols : approveUpdateColumns.all (fun c => schema.contains c) = true
      · simp only [hcols, Bool.not_true, Bool.false_eq_true, if_false, if_true]
        apply map_message_of_update
        intro r
        by_cases hid : (r.id == row.id) = true <;> simp [hid]
      · have h2 : ¬ ∀ x ∈ approveUpdateColumns, x ∈ schema := by
          simpa using hcols
        simp [h2]

/-- Filtering keeps a replicated element the predicate accepts. -/
theorem filter_replicate_of_pos {α : Type} (p : α → Bool) (x : α)
    (h : p x = true) (n : Nat) :
    (List.replicate n x).filter p = List.replicate n x := by
  induction n with
  | zero => rfl
  | succ n ih => simp [List.replicate_succ, List.filter_cons, h, ih]

/-- dropWhile consumes a whole replicated run the predicate accepts. -/
theorem dropWhile_replicate_of_pos {α : Type} (p : α → Bool) (x : α)
    (h : p x = true) (n : Nat) :
    (List.replicate n x).dropWhile p = [] := by
  induction n with
  | zero => rfl
  | succ n ih => simp [List.replicate_succ, List.dropWhile, h, ih]

/-- A whitespace-only string sanitizes and strips to empty. -/
theorem cleanOf_replicate_space (n : Nat) :
    cleanOf latin1CatC asciiIsSpace (List.replicate n ' ') = [] := by
  unfold cleanOf pyStrip
  rw [sanitize_eq_filter,
    filter_replicate_of_pos (keepChar latin1CatC) ' ' (by decide) n,
    dropWhile_replicate_of_pos asciiIsSpace ' ' (by decide) n]
  rfl

/-! Concrete fixtures used by the closed theorems below. -/

/-- A pending message dated today (2026-10-12 UTC). -/
def row_today : Row :=
  { id := 1, message := ("hi").data,
    submitted_at := ("2026-10-12T09:00:00+00:00").data,
    ip_hash := ("abcd").data, gallery_approved := false, commentary := none }

/-- A stored message whose timestamp is dated one day in the future. -/
def row_future : Row :=
  { id := 1, message := ("hi").data,
    submitted_at := ("2026-10-13T00:00:00+00:00").data,
    ip_hash := ("abcd").data, gallery_approved := false, commentary := none }

/-- An empty store, as init_db creates it. -/
def store0 : Store := { nextId := 1, rows := [] }

/-- A store holding exactly one message dated today. -/
def store1 : Store := { nextId := 2, rows := [row_today] }

/-! The claims. -/

/-- C4: for every category predicate and every input, sanitize removes
exactly the characters that are ASCII controls other than newline, DEL, or
of a Unicode category starting with C, and preserves all other characters
and all newlines in their original relative order (it is the filter by the
keep-predicate); and the example input sanitizes to the expected output. -/
theorem C4_sanitize_removes_controls :
    (∀ (catC : Char → Bool) (l : List Char),
      sanitize catC l =
        l.filter (fun c =>
          decide (c = '\n' ∨ (0x20 ≤ c.toNat ∧ c.toNat ≠ 0x7F ∧ catC c = false)))) ∧
    sanitize latin1CatC (("Hello\x1bWorld\n\x07!").data) = ("HelloWorld\n!").data := by
  constructor
  · intro catC l
    exact sanitize_eq_filter catC l
  · decide

/-- C8: sanitize is idempotent for every category predicate and input. -/
theorem C8_sanitize_idempotent (catC : Char → Bool) (x : List Char) :
    sanitize catC (sanitize catC x) = sanitize catC x := by
  rw [sanitize_eq_filter catC x, sanitize_eq_filter catC, filter_idem]

/-- C7: for every cleaned message text, the bytes delivered to the printer
are the initialization bytes 1B 40, the UTF-8 message bytes, one 0A byte,
and the feed-and-cut bytes 1B 64 05 1D 56 00, as one single write; checked
against the specification's frame and on a concrete message. -/
theorem C7_printer_frame :
    (∀ message : List Char,
      print_message message =
        [0x1b, 0x40] ++ utf8Encode message ++ [0x0a] ++
          [0x1b, 0x64, 0x05, 0x1d, 0x56, 0x00] ∧
      deviceWrites message = [specFrame message]) ∧
    print_message (("hi").data) =
      [0x1b, 0x40, 0x68, 0x69, 0x0a, 0x1b, 0x64, 0x05, 0x1d, 0x56, 0x00] := by
  exact ⟨fun message => ⟨rfl, rfl⟩, by decide⟩

/-- C6: on the schema that init_db actually creates, approving the one
pending message does not set gallery_approved and records no commentary:
the UPDATE names the commentary column, which the CREATE TABLE omits, so
the statement fails (sqlite3.OperationalError) and the rows are unchanged
— the code contradicts the approve contract. -/
theorem C6_approve_schema_bug :
    approve_message initDbColumns [row_today] 1 (("nice").data) true =
      (.sqlError, [row_today]) ∧
    "commentary" ∈ approveUpdateColumns ∧ "commentary" ∉ initDbColumns := by
  exact ⟨by decide, by decide, by decide⟩

/-- C10 counterexample: a POST whose message field is present and non-empty
(a single space) is still answered with HTTP 400, so 400 is not returned
only when the field is missing or empty. -/
theorem C10_counterexample :
    do_POST_print asciiIsSpace (.message (some [' '])) none =
      (400, ("Missing message").data) ∧
    (some [' '] : Option (List Char)) ≠ none ∧ ([' '] : List Char) ≠ [] := by
  exact ⟨by decide, by decide, by decide⟩

/-- C10 amended: on the print path the bridge answers 200 with body OK on
success; 400 exactly when the message field is missing or strips to empty
(whitespace-only included); and 500 with the exception's description on any
other failure (unparsable or non-dict body, non-string message, or a
printer error). -/
theorem C10_amended_responses (isSp : Char → Bool) :
    (∀ (e : List Char) (pr : Option (List Char)),
      do_POST_print isSp (.raisesBeforeStrip e) pr = (500, e)) ∧
    (∀ (m : Option (List Char)) (pr : Option (List Char)),
      pyStrip isSp (m.getD []) = [] →
        do_POST_print isSp (.message m) pr = (400, ("Missing message").data)) ∧
    (∀ (m : Option (List Char)) (e : List Char),
      pyStrip isSp (m.getD []) ≠ [] →
        do_POST_print isSp (.message m) (some e) = (500, e)) ∧
    (∀ m : Option (List Char),
      pyStrip isSp (m.getD []) ≠ [] →
        do_POST_print isSp (.message m) none = (200, ("OK").data)) := by
  refine ⟨fun e pr => rfl, fun m pr h => ?_, fun m e h => ?_, fun m h => ?_⟩
  · simp [do_POST_print, h]
  · simp [do_POST_print, h]
  · simp [do_POST_print, h]

/-- C10 witness: the amended behavior at concrete requests — a missing
message field gets 400, and a message of hi with a working printer gets
200 OK. -/
theorem C10_amended_witness :
    (pyStrip asciiIsSpace ((none : Option (List Char)).getD []) = [] ∧
      do_POST_print asciiIsSpace (.message none) none =
        (400, ("Missing message").data)) ∧
    (pyStrip asciiIsSpace ((some (("hi").data)).getD []) ≠ [] ∧
      do_POST_print asciiIsSpace (.message (some (("hi").data))) none =
        (200, ("OK").data)) :=
  ⟨⟨by decide, (C10_amended_responses asciiIsSpace).2.1 none none (by decide)⟩,
   ⟨by decide, (C10_amended_responses asciiIsSpace).2.2.2 (some (("hi").data)) (by decide)⟩⟩

/-- C1 counterexample: the quota query compares the whole timestamp string
with the date string by greater-or-equal, not by prefix equality, so a
stored message dated tomorrow (2026-10-13) is counted toward the quota of
2026-10-12 although its date differs from today. -/
theorem C1_counterexample :
    countedTowardQuota (("2026-10-12").data) row_future = true ∧
    row_future.submitted_at.take 10 ≠ ("2026-10-12").data ∧
    countToday [row_future] (("2026-10-12").data) = 1 := by
  exact ⟨by decide, by decide, by decide⟩

/-- C1 amended: a stored message is counted toward the daily quota iff its
ISO-8601 timestamp string is lexicographically at least the current UTC
date string (its date is today or later); consequently, for every store
already containing exactly limit messages whose timestamp begins with
today's date, a new valid submission fails with dailyLimitReached and the
store is unchanged. -/
theorem C1_amended_daily_limit (catC isSp : Char → Bool) (limit : Nat)
    (today now ip msg : List Char) (printerOk : Bool) (store : Store)
    (hfull : (store.rows.filter (hasDate today)).length = limit)
    (hlen : msg.length ≤ MAX_LENGTH)
    (hclean : cleanOf catC isSp msg ≠ []) :
    submit catC isSp limit today now printerOk ip store msg =
      (.dailyLimitReached, store) := by
  unfold submit
  rw [if_neg (by omega), if_neg hclean, if_pos ?_]
  rw [← hfull]
  unfold countToday
  exact length_filter_mono _ _ (fun r h => strLE_of_hasDate today r h) store.rows

/-- C1 witness: with the daily limit set to 1 and a store holding one
message dated today, a valid two-character submission is rejected with
dailyLimitReached and the store is unchanged. -/
theorem C1_witness :
    ((store1.rows.filter (hasDate (("2026-10-12").data))).length = 1 ∧
      (("yo").data).length ≤ MAX_LENGTH ∧
      cleanOf latin1CatC asciiIsSpace (("yo").data) ≠ []) ∧
    submit latin1CatC asciiIsSpace 1 (("2026-10-12").data)
        (("2026-10-12T10:00:00+00:00").data) true (("aa").data) store1
        (("yo").data) = (.dailyLimitReached, store1) :=
  ⟨⟨by decide, by decide, by decide⟩,
   C1_amended_daily_limit latin1CatC asciiIsSpace 1 (("2026-10-12").data)
     (("2026-10-12T10:00:00+00:00").data) (("aa").data) (("yo").data) true
     store1 (by decide) (by decide) (by decide)⟩

/-- C2: for every valid submission under quota whose printer call fails,
the result is printerUnavailable and the store nonetheless holds the new
row with the cleaned text, appended after the previous rows — no rollback
of the insert. -/
theorem C2_printer_failure_keeps_persist (catC isSp : Char → Bool)
    (limit : Nat) (today now ip msg : List Char) (store : Store)
    (hlen : msg.length ≤ MAX_LENGTH)
    (hclean : cleanOf catC isSp msg ≠ [])
    (hquota : countToday store.rows today < limit) :
    submit catC isSp limit today now false ip store msg =
      (.printerUnavailable,
        { nextId := store.nextId + 1,
          rows := store.rows ++
            [{ id := store.nextId, message := cleanOf catC isSp msg,
               submitted_at := now, ip_hash := ip, gallery_approved := false,
               commentary := none }] }) := by
  unfold submit
  rw [if_neg (by omega), if_neg hclean, if_neg (by omega)]
  rfl

/-- C2 witness: submitting hi there to an empty store with a failing
printer reports printerUnavailable while the cleaned text is persisted. -/
theorem C2_witness :
    ((("hi there").data).length ≤ MAX_LENGTH ∧
      cleanOf latin1CatC asciiIsSpace (("hi there").data) ≠ [] ∧
      countToday store0.rows (("2026-10-12").data) < 30) ∧
    submit latin1CatC asciiIsSpace 30 (("2026-10-12").data)
        (("2026-10-12T10:00:00+00:00").data) false (("aa").data) store0
        (("hi there").data) =
      (.printerUnavailable,
        { nextId := store0.nextId + 1,
          rows := store0.rows ++
            [{ id := store0.nextId,
               message := cleanOf latin1CatC asciiIsSpace (("hi there").data),
               submitted_at := ("2026-10-12T10:00:00+00:00").data,
               ip_hash := ("aa").data, gallery_approved := false,
               commentary := none }] }) :=
  ⟨⟨by decide, by decide, by decide⟩,
   C2_printer_failure_keeps_persist latin1CatC asciiIsSpace 30
     (("2026-10-12").data) (("2026-10-12T10:00:00+00:00").data) (("aa").data)
     (("hi there").data) store0 (by decide) (by decide) (by decide)⟩

/-- C5 counterexample: a 10001-character all-whitespace submission
sanitizes and strips to empty, yet the pipeline answers with the length
validation rejection (pydantic, HTTP 422), not EmptyContent, because the
length check runs on the raw text before sanitization. -/
theorem C5_counterexample :
    cleanOf latin1CatC asciiIsSpace (List.replicate 10001 ' ') = [] ∧
    submit latin1CatC asciiIsSpace 30 (("2026-10-12").data)
        (("2026-10-12T10:00:00+00:00").data) true (("aa").data) store0
        (List.replicate 10001 ' ') = (.validationError, store0) ∧
    SubmitResult.validationError ≠ SubmitResult.emptyContent := by
  refine ⟨cleanOf_replicate_space 10001, ?_, by decide⟩
  unfold submit
  rw [if_pos ?_]
  rw [List.length_replicate]
  norm_num [MAX_LENGTH]

/-- C5 amended: for every submitted text within the raw length bound whose
sanitized form strips to empty, the submission fails with emptyContent and
the store is unchanged. -/
theorem C5_amended_empty_content (catC isSp : Char → Bool) (limit : Nat)
    (today now ip msg : List Char) (printerOk : Bool) (store : Store)
    (hlen : msg.length ≤ MAX_LENGTH)
    (hempty : cleanOf catC isSp msg = []) :
    submit catC isSp limit today now printerOk ip store msg =
      (.emptyContent, store) := by
  unfold submit
  rw [if_neg (by omega), if_pos hempty]

/-- C5 witness: a single BEL character sanitizes to nothing, and its
submission returns emptyContent leaving the empty store unchanged. -/
theorem C5_witness :
    ((("\x07").data).length ≤ MAX_LENGTH ∧
      cleanOf latin1CatC asciiIsSpace (("\x07").data) = []) ∧
    submit latin1CatC asciiIsSpace 30 (("2026-10-12").data)
        (("2026-10-12T10:00:00+00:00").data) true (("aa").data) store0
        (("\x07").data) = (.emptyContent, store0) :=
  ⟨⟨by decide, by decide⟩,
   C5_amended_empty_content latin1CatC asciiIsSpace 30 (("2026-10-12").data)
     (("2026-10-12T10:00:00+00:00").data) (("aa").data) (("\x07").data) true
     store0 (by decide) (by decide)⟩

/-- The invariant of the stored texts: non-empty, between 1 and 10000 code
points, and no character is an ASCII control other than newline, DEL, or
of a Unicode category starting with C. -/
def textInvariant (catC : Char → Bool) (t : List Char) : Prop :=
  t ≠ [] ∧ 1 ≤ t.length ∧ t.length ≤ MAX_LENGTH ∧
    ∀ c ∈ t, c = '\n' ∨ (0x20 ≤ c.toNat ∧ c.toNat ≠ 0x7F ∧ catC c = false)

/-- C9: every run of the submission pipeline either leaves the rows
unchanged or appends exactly one row whose text satisfies the invariant;
and the moderation tool's approve never alters any stored text, so the
invariant is preserved by every operation. -/
theorem C9_stored_text_invariant (catC isSp : Char → Bool) (limit : Nat)
    (today now ip msg : List Char) (printerOk : Bool) (store : Store) :
    ((submit catC isSp limit today now printerOk ip store msg).2.rows =
        store.rows ∨
      ∃ r, (submit catC isSp limit today now printerOk ip store msg).2.rows =
          store.rows ++ [r] ∧ textInvariant catC r.message) ∧
    (∀ (schema : List String) (rows : List Row) (mid : Nat)
        (commentary : List Char) (confirm : Bool),
      ((approve_message schema rows mid commentary confirm).2).map
          Row.message = rows.map Row.message) := by
  constructor
  · by_cases h1 : msg.length > MAX_LENGTH
    · left; unfold submit; rw [if_pos h1]
    · by_cases h2 : cleanOf catC isSp msg = []
      · left; unfold submit; rw [if_neg h1, if_pos h2]
      · by_cases h3 : countToday store.rows today ≥ limit
        · left; unfold submit; rw [if_neg h1, if_neg h2, if_pos h3]
        · right
          refine ⟨{ id := store.nextId, message := cleanOf catC isSp msg,
                    submitted_at := now, ip_hash := ip,
                    gallery_approved := false, commentary := none }, ?_, ?_⟩
          · unfold submit
            rw [if_neg h1, if_neg h2, if_neg h3]
            cases printerOk <;> rfl
          · refine ⟨h2, ?_, ?_, ?_⟩
            · exact Nat.succ_le_of_lt (List.length_pos.mpr h2)
            · exact Nat.le_trans (length_cleanOf_le catC isSp msg) (by omega)
            · intro c hc
              exact mem_cleanOf catC isSp msg c hc
  · exact approve_message_preserves_texts

end Guestbook
